import Mathlib

/-!
Shallow embedding of `src/software/source.c`, the Nios II control software
for a 4x4 matrix-multiplication accelerator. Pure bit-packing routines are
embedded as Lean functions on `Nat` (with explicit `% 2 ^ w` where a C
fixed-width type truncates); the memory-mapped register traffic of `main`
is embedded as a list of register-access events, parameterised by oracles
for the values returned by hardware reads.
-/

namespace Soc

/-! ### Hardware parameters and memory map (the `#define`s) -/

def DATA_WIDTH : Nat := 16
def M : Nat := 4
def K : Nat := 4
def N : Nat := 4
def N_BANKS : Nat := 4
def MATRIX_DIM : Nat := 4
def ELEMENT_INDEX_BITS : Nat := 2
def ADDR_BITS : Nat := 4

def ADDR_CONTROL_OFFSET : Nat := 0x00
def ADDR_STATUS_OFFSET : Nat := 0x08
def ADDR_C_ADDR_OFFSET : Nat := 0x10
def ADDR_C_DATA_OFFSET : Nat := 0x18
def ADDR_A_ADDR_OFFSET : Nat := 0x20
def ADDR_A_DATA_OFFSET : Nat := 0x28
def ADDR_B_ADDR_OFFSET : Nat := 0x30
def ADDR_B_DATA_OFFSET : Nat := 0x38

/-- A 4x4 matrix of unsigned 16-bit elements (`alt_u16 m[4][4]`), embedded as
a total function on indices; cells hold values below `2 ^ 16`, which the
loaders enforce with an explicit `% 2 ^ DATA_WIDTH` where C relies on the
`uint16_t` storage type. -/
abbrev Matrix4 := Nat → Nat → Nat

/-- The compiled-in sample operand `matrix_A`. -/
def matrix_A : Matrix4 := fun r c =>
  (([[1, 2, 3, 4],
     [5, 6, 7, 8],
     [9, 10, 11, 12],
     [13, 14, 15, 16]] : List (List Nat)).getD r []).getD c 0

/-- The compiled-in sample operand `matrix_B`. -/
def matrix_B : Matrix4 := fun r c =>
  (([[16, 15, 14, 13],
     [12, 11, 10, 9],
     [8, 7, 6, 5],
     [4, 3, 2, 1]] : List (List Nat)).getD r []).getD c 0

/-- Embedding of `compose_bram_address`: `address |= element_idx;
address |= bank_idx << ELEMENT_INDEX_BITS`. -/
def compose_bram_address (bank_idx element_idx : Nat) : Nat :=
  (0 ||| element_idx) ||| (bank_idx <<< ELEMENT_INDEX_BITS)

/-- Embedding of the packing loop of `load_matrix_A_column`: the pair
`(addr_buffer, data_buffer)` accumulated over `row_idx = 0..3`, with
`bank_idx = row_idx` and `element_idx = col_idx`. -/
def load_matrix_A_column_buffers (m : Matrix4) (col_idx : Nat) : Nat × Nat :=
  (List.range MATRIX_DIM).foldl
    (fun buf row_idx =>
      let data := m row_idx col_idx % 2 ^ DATA_WIDTH
      let bram_address_to_write := compose_bram_address row_idx col_idx
      (buf.1 ||| bram_address_to_write <<< (row_idx * ADDR_BITS),
       buf.2 ||| data <<< (row_idx * 16)))
    (0, 0)

/-- Embedding of the packing loop of `load_matrix_B_row`: the pair
`(addr_buffer, data_buffer)` accumulated over `col_idx = 0..3`, with
`bank_idx = col_idx` and `element_idx = row_idx`. -/
def load_matrix_B_row_buffers (m : Matrix4) (row_idx : Nat) : Nat × Nat :=
  (List.range MATRIX_DIM).foldl
    (fun buf col_idx =>
      let data := m row_idx col_idx % 2 ^ DATA_WIDTH
      let bram_address_to_write := compose_bram_address col_idx row_idx
      (buf.1 ||| bram_address_to_write <<< (col_idx * ADDR_BITS),
       buf.2 ||| data <<< (col_idx * 16)))
    (0, 0)

/-! ### Register-access events

Each memory-mapped access of the C program becomes one event recording the
register offset, the access width in bits (64 for the `uint64_t` pointers,
32 for the `alt_u32` pointers), and the value transferred. -/

inductive RegEvent where
  | write (offset width value : Nat)
  | read (offset width value : Nat)
deriving DecidableEq

/-- Embedding of the observable behaviour of `load_matrix_A_column`: the list
of register writes it performs and whether it reported an invalid-index
error. Out-of-range `col_idx` prints an error and returns before touching
any register. -/
def load_matrix_A_column_events (m : Matrix4) (col_idx : Nat) :
    List RegEvent × Bool :=
  if MATRIX_DIM ≤ col_idx then ([], true)
  else
    let buf := load_matrix_A_column_buffers m col_idx
    ([RegEvent.write ADDR_A_ADDR_OFFSET 64 buf.1,
      RegEvent.write ADDR_A_DATA_OFFSET 64 buf.2], false)

/-- Embedding of the observable behaviour of `load_matrix_B_row`. -/
def load_matrix_B_row_events (m : Matrix4) (row_idx : Nat) :
    List RegEvent × Bool :=
  if MATRIX_DIM ≤ row_idx then ([], true)
  else
    let buf := load_matrix_B_row_buffers m row_idx
    ([RegEvent.write ADDR_B_ADDR_OFFSET 64 buf.1,
      RegEvent.write ADDR_B_DATA_OFFSET 64 buf.2], false)

/-- Embedding of the status poll of `main`:
`do { status_reg = *status_reg_ptr; } while (!(status_reg & 0x1));`.
The oracle `s` gives the value delivered by the k-th status read (a 32-bit
`alt_u32` access). The C loop has no timeout, so termination is external to
the program: `fuel` bounds how far the oracle is examined, and `none` means
the loop is still spinning after `fuel` reads. -/
def poll_status_events (s : Nat → Nat) : Nat → Nat → Option (List RegEvent)
  | _, 0 => none
  | k, fuel + 1 =>
    let status_reg := s k % 2 ^ 32
    if status_reg &&& 0x1 ≠ 0 then
      some [RegEvent.read ADDR_STATUS_OFFSET 32 status_reg]
    else
      match poll_status_events s (k + 1) fuel with
      | none => none
      | some evs => some (RegEvent.read ADDR_STATUS_OFFSET 32 status_reg :: evs)

/-- Embedding of the result-read loop of `main`: for each row and column,
write the linear BRAM address `row * N + col` to the C-address register and
read one 32-bit product from the C-data register. The oracle `c` gives the
value delivered when reading linear address `k`. -/
def read_results_events (c : Nat → Nat) : List RegEvent :=
  (List.range M).foldl
    (fun acc row =>
      (List.range N).foldl
        (fun acc2 col =>
          let c_bram_addr := row * N + col
          acc2 ++ [RegEvent.write ADDR_C_ADDR_OFFSET 32 c_bram_addr,
            RegEvent.read ADDR_C_DATA_OFFSET 32 (c c_bram_addr % 2 ^ 32)])
        acc)
    []

/-- Embedding of the matrix-A load loop of `main`:
`for (col = 0; col < K; col++) load_matrix_A_column(...)`. -/
def load_A_phase_events (A : Matrix4) : List RegEvent :=
  (List.range K).foldl
    (fun acc col => acc ++ (load_matrix_A_column_events A col).1) []

/-- Embedding of the matrix-B load loop of `main`:
`for (row = 0; row < K; row++) load_matrix_B_row(...)`. -/
def load_B_phase_events (B : Matrix4) : List RegEvent :=
  (List.range K).foldl
    (fun acc row => acc ++ (load_matrix_B_row_events B row).1) []

/-- Embedding of the register traffic of `main`: load A by columns, load B
by rows, write the start command 0x3 to the control register through an
`alt_u32` pointer (a 32-bit access), poll the status register until bit 0
is set, then read out the 16 result elements. `none` when the poll does not
terminate within `fuel` reads. -/
def main_events (A B : Matrix4) (s c : Nat → Nat) (fuel : Nat) :
    Option (List RegEvent) :=
  match poll_status_events s 0 fuel with
  | none => none
  | some pollEvs =>
      some (load_A_phase_events A ++ load_B_phase_events B
        ++ [RegEvent.write ADDR_CONTROL_OFFSET 32 0x3] ++ pollEvs
        ++ read_results_events c)

/-- Predicate picking out writes to the control register, at any width. -/
def isControlWrite : RegEvent → Bool
  | RegEvent.write offset _ _ => offset == ADDR_CONTROL_OFFSET
  | _ => false

/-- The value of a write to the C-address register, `none` on other events. -/
def cAddrWriteValue : RegEvent → Option Nat
  | RegEvent.write offset _ value =>
      if offset == ADDR_C_ADDR_OFFSET then some value else none
  | _ => none

/-- Status oracle reporting the accelerator done on the very first read. -/
def statusDoneAtOnce : Nat → Nat := fun _ => 1

/-- Status oracle whose third read is the first with the done bit set. -/
def statusDoneAtTwo : Nat → Nat := fun k => if k = 2 then 1 else 0

/-- Result oracle returning zero for every C-data read. -/
def cDataZero : Nat → Nat := fun _ => 0

/-- The concrete register trace of `main` on the sample matrices when the
device reports done on the first status read. -/
def mainSampleTrace : List RegEvent :=
  (main_events matrix_A matrix_B statusDoneAtOnce cDataZero 1).getD []

/-- Expected shape of the matrix-A load phase: one A-address/A-data 64-bit
write pair per column, columns 0 to 3 in order. -/
def load_A_phase_expected (A : Matrix4) : List RegEvent :=
  [RegEvent.write ADDR_A_ADDR_OFFSET 64 (load_matrix_A_column_buffers A 0).1,
   RegEvent.write ADDR_A_DATA_OFFSET 64 (load_matrix_A_column_buffers A 0).2,
   RegEvent.write ADDR_A_ADDR_OFFSET 64 (load_matrix_A_column_buffers A 1).1,
   RegEvent.write ADDR_A_DATA_OFFSET 64 (load_matrix_A_column_buffers A 1).2,
   RegEvent.write ADDR_A_ADDR_OFFSET 64 (load_matrix_A_column_buffers A 2).1,
   RegEvent.write ADDR_A_DATA_OFFSET 64 (load_matrix_A_column_buffers A 2).2,
   RegEvent.write ADDR_A_ADDR_OFFSET 64 (load_matrix_A_column_buffers A 3).1,
   RegEvent.write ADDR_A_DATA_OFFSET 64 (load_matrix_A_column_buffers A 3).2]

/-- Expected shape of the matrix-B load phase: one B-address/B-data 64-bit
write pair per row, rows 0 to 3 in order. -/
def load_B_phase_expected (B : Matrix4) : List RegEvent :=
  [RegEvent.write ADDR_B_ADDR_OFFSET 64 (load_matrix_B_row_buffers B 0).1,
   RegEvent.write ADDR_B_DATA_OFFSET 64 (load_matrix_B_row_buffers B 0).2,
   RegEvent.write ADDR_B_ADDR_OFFSET 64 (load_matrix_B_row_buffers B 1).1,
   RegEvent.write ADDR_B_DATA_OFFSET 64 (load_matrix_B_row_buffers B 1).2,
   RegEvent.write ADDR_B_ADDR_OFFSET 64 (load_matrix_B_row_buffers B 2).1,
   RegEvent.write ADDR_B_DATA_OFFSET 64 (load_matrix_B_row_buffers B 2).2,
   RegEvent.write ADDR_B_ADDR_OFFSET 64 (load_matrix_B_row_buffers B 3).1,
   RegEvent.write ADDR_B_DATA_OFFSET 64 (load_matrix_B_row_buffers B 3).2]

/-- Expected shape of the result-read phase: for each linear index 0..15 in
ascending row-major order, a 32-bit write of the index to the C-address
register immediately followed by one 32-bit read of the C-data register. -/
def result_sweep_expected (c : Nat → Nat) : List RegEvent :=
  [RegEvent.write ADDR_C_ADDR_OFFSET 32 0,
   RegEvent.read ADDR_C_DATA_OFFSET 32 (c 0 % 2 ^ 32),
   RegEvent.write ADDR_C_ADDR_OFFSET 32 1,
   RegEvent.read ADDR_C_DATA_OFFSET 32 (c 1 % 2 ^ 32),
   RegEvent.write ADDR_C_ADDR_OFFSET 32 2,
   RegEvent.read ADDR_C_DATA_OFFSET 32 (c 2 % 2 ^ 32),
   RegEvent.write ADDR_C_ADDR_OFFSET 32 3,
   RegEvent.read ADDR_C_DATA_OFFSET 32 (c 3 % 2 ^ 32),
   RegEvent.write ADDR_C_ADDR_OFFSET 32 4,
   RegEvent.read ADDR_C_DATA_OFFSET 32 (c 4 % 2 ^ 32),
   RegEvent.write ADDR_C_ADDR_OFFSET 32 5,
   RegEvent.read ADDR_C_DATA_OFFSET 32 (c 5 % 2 ^ 32),
   RegEvent.write ADDR_C_ADDR_OFFSET 32 6,
   RegEvent.read ADDR_C_DATA_OFFSET 32 (c 6 % 2 ^ 32),
   RegEvent.write ADDR_C_ADDR_OFFSET 32 7,
   RegEvent.read ADDR_C_DATA_OFFSET 32 (c 7 % 2 ^ 32),
   RegEvent.write ADDR_C_ADDR_OFFSET 32 8,
   RegEvent.read ADDR_C_DATA_OFFSET 32 (c 8 % 2 ^ 32),
   RegEvent.write ADDR_C_ADDR_OFFSET 32 9,
   RegEvent.read ADDR_C_DATA_OFFSET 32 (c 9 % 2 ^ 32),
   RegEvent.write ADDR_C_ADDR_OFFSET 32 10,
   RegEvent.read ADDR_C_DATA_OFFSET 32 (c 10 % 2 ^ 32),
   RegEvent.write ADDR_C_ADDR_OFFSET 32 11,
   RegEvent.read ADDR_C_DATA_OFFSET 32 (c 11 % 2 ^ 32),
   RegEvent.write ADDR_C_ADDR_OFFSET 32 12,
   RegEvent.read ADDR_C_DATA_OFFSET 32 (c 12 % 2 ^ 32),
   RegEvent.write ADDR_C_ADDR_OFFSET 32 13,
   RegEvent.read ADDR_C_DATA_OFFSET 32 (c 13 % 2 ^ 32),
   RegEvent.write ADDR_C_ADDR_OFFSET 32 14,
   RegEvent.read ADDR_C_DATA_OFFSET 32 (c 14 % 2 ^ 32),
   RegEvent.write ADDR_C_ADDR_OFFSET 32 15,
   RegEvent.read ADDR_C_DATA_OFFSET 32 (c 15 % 2 ^ 32)]

/-! ### Bit-field helper lemmas -/

/-- An OR of a low field below `2 ^ n` with a value shifted left by `n` is
their sum: the fields are disjoint. -/
theorem lor_shiftLeft_eq_add (a b n : Nat) (h : a < 2 ^ n) :
    a ||| b <<< n = a + b * 2 ^ n := by
  rw [Nat.shiftLeft_eq, Nat.lor_comm, Nat.mul_comm b,
    ← Nat.mul_add_lt_is_or h b, Nat.add_comm, Nat.mul_comm]

theorem lor_shiftLeft16 (a b : Nat) (h : a < 65536) :
    a ||| b <<< 16 = a + b * 65536 := by
  have := lor_shiftLeft_eq_add a b 16 (by norm_num [h])
  norm_num at this
  exact this

theorem lor_shiftLeft32 (a b : Nat) (h : a < 4294967296) :
    a ||| b <<< 32 = a + b * 4294967296 := by
  have := lor_shiftLeft_eq_add a b 32 (by norm_num [h])
  norm_num at this
  exact this

theorem lor_shiftLeft48 (a b : Nat) (h : a < 281474976710656) :
    a ||| b <<< 48 = a + b * 281474976710656 := by
  have := lor_shiftLeft_eq_add a b 48 (by norm_num [h])
  norm_num at this
  exact this

theorem lor_shiftLeft2 (a b : Nat) (h : a < 4) :
    a ||| b <<< 2 = a + b * 4 := by
  have := lor_shiftLeft_eq_add a b 2 (by norm_num [h])
  norm_num at this
  exact this

theorem lor_shiftLeft4 (a b : Nat) (h : a < 16) :
    a ||| b <<< 4 = a + b * 16 := by
  have := lor_shiftLeft_eq_add a b 4 (by norm_num [h])
  norm_num at this
  exact this

theorem lor_shiftLeft8 (a b : Nat) (h : a < 256) :
    a ||| b <<< 8 = a + b * 256 := by
  have := lor_shiftLeft_eq_add a b 8 (by norm_num [h])
  norm_num at this
  exact this

theorem lor_shiftLeft12 (a b : Nat) (h : a < 4096) :
    a ||| b <<< 12 = a + b * 4096 := by
  have := lor_shiftLeft_eq_add a b 12 (by norm_num [h])
  norm_num at this
  exact this

/-- Evaluated form of `compose_bram_address` on an in-range element index. -/
theorem compose_bram_address_eq (bank_idx element_idx : Nat)
    (he : element_idx < 4) :
    compose_bram_address bank_idx element_idx = element_idx + bank_idx * 4 := by
  show (0 ||| element_idx) ||| bank_idx <<< 2 = _
  rw [Nat.zero_or, lor_shiftLeft2 _ _ he]

/-- The data buffer packed by `load_matrix_A_column` as a sum of four
disjoint 16-bit fields, field `row` holding `matrix[row][col] % 2 ^ 16`. -/
theorem load_matrix_A_column_data_eq (m : Matrix4) (col : Nat) :
    (load_matrix_A_column_buffers m col).2 =
      m 0 col % 65536 + (m 1 col % 65536) * 65536
        + (m 2 col % 65536) * 4294967296
        + (m 3 col % 65536) * 281474976710656 := by
  have h0 : m 0 col % 65536 < 65536 := Nat.mod_lt _ (by norm_num)
  have h1 : m 1 col % 65536 < 65536 := Nat.mod_lt _ (by norm_num)
  have h2 : m 2 col % 65536 < 65536 := Nat.mod_lt _ (by norm_num)
  show ((((0 ||| (m 0 col % 65536) <<< 0) ||| (m 1 col % 65536) <<< 16)
        ||| (m 2 col % 65536) <<< 32) ||| (m 3 col % 65536) <<< 48) = _
  rw [Nat.zero_or, Nat.shiftLeft_zero, lor_shiftLeft16 _ _ h0,
    lor_shiftLeft32 _ _ (by omega), lor_shiftLeft48 _ _ (by omega)]

/-- The data buffer packed by `load_matrix_B_row` as a sum of four disjoint
16-bit fields, field `col` holding `matrix[row][col] % 2 ^ 16`. -/
theorem load_matrix_B_row_data_eq (m : Matrix4) (row : Nat) :
    (load_matrix_B_row_buffers m row).2 =
      m row 0 % 65536 + (m row 1 % 65536) * 65536
        + (m row 2 % 65536) * 4294967296
        + (m row 3 % 65536) * 281474976710656 := by
  have h0 : m row 0 % 65536 < 65536 := Nat.mod_lt _ (by norm_num)
  have h1 : m row 1 % 65536 < 65536 := Nat.mod_lt _ (by norm_num)
  have h2 : m row 2 % 65536 < 65536 := Nat.mod_lt _ (by norm_num)
  show ((((0 ||| (m row 0 % 65536) <<< 0) ||| (m row 1 % 65536) <<< 16)
        ||| (m row 2 % 65536) <<< 32) ||| (m row 3 % 65536) <<< 48) = _
  rw [Nat.zero_or, Nat.shiftLeft_zero, lor_shiftLeft16 _ _ h0,
    lor_shiftLeft32 _ _ (by omega), lor_shiftLeft48 _ _ (by omega)]

/-- The address buffer packed by `load_matrix_A_column` as a sum of four
disjoint 4-bit fields, field `row` holding `compose_bram_address row col`. -/
theorem load_matrix_A_column_addr_eq (m : Matrix4) (col : Nat) (hcol : col < 4) :
    (load_matrix_A_column_buffers m col).1 =
      compose_bram_address 0 col + compose_bram_address 1 col * 16
        + compose_bram_address 2 col * 256
        + compose_bram_address 3 col * 4096 := by
  have h0 := compose_bram_address_eq 0 col hcol
  have h1 := compose_bram_address_eq 1 col hcol
  have h2 := compose_bram_address_eq 2 col hcol
  show ((((0 ||| compose_bram_address 0 col <<< 0)
        ||| compose_bram_address 1 col <<< 4)
        ||| compose_bram_address 2 col <<< 8)
        ||| compose_bram_address 3 col <<< 12) = _
  rw [Nat.zero_or, Nat.shiftLeft_zero, lor_shiftLeft4 _ _ (by omega),
    lor_shiftLeft8 _ _ (by omega), lor_shiftLeft12 _ _ (by omega)]

/-- The address buffer packed by `load_matrix_B_row` as a sum of four
disjoint 4-bit fields, field `col` holding `compose_bram_address col row`. -/
theorem load_matrix_B_row_addr_eq (m : Matrix4) (row : Nat) (hrow : row < 4) :
    (load_matrix_B_row_buffers m row).1 =
      compose_bram_address 0 row + compose_bram_address 1 row * 16
        + compose_bram_address 2 row * 256
        + compose_bram_address 3 row * 4096 := by
  have h0 := compose_bram_address_eq 0 row hrow
  have h1 := compose_bram_address_eq 1 row hrow
  have h2 := compose_bram_address_eq 2 row hrow
  show ((((0 ||| compose_bram_address 0 row <<< 0)
        ||| compose_bram_address 1 row <<< 4)
        ||| compose_bram_address 2 row <<< 8)
        ||| compose_bram_address 3 row <<< 12) = _
  rw [Nat.zero_or, Nat.shiftLeft_zero, lor_shiftLeft4 _ _ (by omega),
    lor_shiftLeft8 _ _ (by omega), lor_shiftLeft12 _ _ (by omega)]

/-- Claim C1: for every 4x4 matrix of 16-bit elements and every column index
in `[0,4)`, the data word built by `load_matrix_A_column` holds the four
column elements in disjoint 16-bit fields: extracting bits
`[row*16, row*16+16)` recovers `matrix[row][column_index]` for every row. -/
theorem column_pack_recovers_elements (m : Matrix4) (col row : Nat)
    (hcol : col < 4) (hrow : row < 4)
    (hm : ∀ r < 4, ∀ c < 4, m r c < 2 ^ 16) :
    ((load_matrix_A_column_buffers m col).2 >>> (row * 16)) % 2 ^ 16
      = m row col := by
  have hv : m row col < 65536 := by
    have := hm row hrow col hcol
    norm_num at this
    exact this
  have h0 : m 0 col % 65536 < 65536 := Nat.mod_lt _ (by norm_num)
  have h1 : m 1 col % 65536 < 65536 := Nat.mod_lt _ (by norm_num)
  have h2 : m 2 col % 65536 < 65536 := Nat.mod_lt _ (by norm_num)
  have h3 : m 3 col % 65536 < 65536 := Nat.mod_lt _ (by norm_num)
  rw [load_matrix_A_column_data_eq, Nat.shiftRight_eq_div_pow]
  interval_cases row <;> (norm_num; omega)

/-- Claim C1 witness: the sample matrix A at column 0, row 1. -/
theorem column_pack_recovers_elements_witness :
    ((load_matrix_A_column_buffers matrix_A 0).2 >>> (1 * 16)) % 2 ^ 16
      = matrix_A 1 0 :=
  column_pack_recovers_elements matrix_A 0 1 (by norm_num) (by norm_num)
    (by decide)

/-- Claim C2: `load_matrix_B_row` iterates the bank slot over the column
dimension, composing each element address with bank index = column slot and
element index = row index (so its address word is the sum of
`compose_bram_address col row` over the four disjoint 4-bit slots), and its
data word recovers `matrix[row_index][col]` at bit offset `col*16`. -/
theorem row_pack_composition_and_recovery (m : Matrix4) (row col : Nat)
    (hrow : row < 4) (hcol : col < 4)
    (hm : ∀ r < 4, ∀ c < 4, m r c < 2 ^ 16) :
    (load_matrix_B_row_buffers m row).1 =
      compose_bram_address 0 row + compose_bram_address 1 row * 16
        + compose_bram_address 2 row * 256
        + compose_bram_address 3 row * 4096
    ∧ ((load_matrix_B_row_buffers m row).2 >>> (col * 16)) % 2 ^ 16
        = m row col := by
  refine ⟨load_matrix_B_row_addr_eq m row hrow, ?_⟩
  have hv : m row col < 65536 := by
    have := hm row hrow col hcol
    norm_num at this
    exact this
  have h0 : m row 0 % 65536 < 65536 := Nat.mod_lt _ (by norm_num)
  have h1 : m row 1 % 65536 < 65536 := Nat.mod_lt _ (by norm_num)
  have h2 : m row 2 % 65536 < 65536 := Nat.mod_lt _ (by norm_num)
  have h3 : m row 3 % 65536 < 65536 := Nat.mod_lt _ (by norm_num)
  rw [load_matrix_B_row_data_eq, Nat.shiftRight_eq_div_pow]
  interval_cases col <;> (norm_num; omega)

/-- Claim C2 witness: the sample matrix B at row 0, column 2. -/
theorem row_pack_composition_and_recovery_witness :
    (load_matrix_B_row_buffers matrix_B 0).1 =
      compose_bram_address 0 0 + compose_bram_address 1 0 * 16
        + compose_bram_address 2 0 * 256
        + compose_bram_address 3 0 * 4096
    ∧ ((load_matrix_B_row_buffers matrix_B 0).2 >>> (2 * 16)) % 2 ^ 16
        = matrix_B 0 2 :=
  row_pack_composition_and_recovery matrix_B 0 2 (by norm_num) (by norm_num)
    (by decide)

/-- Claim C3: for bank and element indices in `[0,4)`,
`compose_bram_address` returns exactly `element_idx | (bank_idx << 2)`, and
the result fits in 4 bits. -/
theorem compose_bram_address_contract (bank_idx element_idx : Nat)
    (hb : bank_idx < 4) (he : element_idx < 4) :
    compose_bram_address bank_idx element_idx
        = element_idx ||| bank_idx <<< 2
    ∧ compose_bram_address bank_idx element_idx < 2 ^ 4 := by
  constructor
  · show (0 ||| element_idx) ||| bank_idx <<< 2 = _
    rw [Nat.zero_or]
  · rw [compose_bram_address_eq _ _ he]
    omega

/-- Claim C3 witness: bank 3, element 2 gives address 14, below 16. -/
theorem compose_bram_address_contract_witness :
    compose_bram_address 3 2 = 2 ||| 3 <<< 2
    ∧ compose_bram_address 3 2 < 2 ^ 4 :=
  compose_bram_address_contract 3 2 (by norm_num) (by norm_num)

/-- Claim C4 counterexample: on the sample matrix A at column 0 the packed
address word is not `0 | (1<<4) | (2<<8) | (3<<12)` as the claim states
(the code shifts the full 4-bit addresses 0, 4, 8, 12, not the bare bank
indices 1, 2, 3). -/
theorem sample_column0_claimed_address_wrong :
    (load_matrix_A_column_buffers matrix_A 0).1
      ≠ 0 ||| 1 <<< 4 ||| 2 <<< 8 ||| 3 <<< 12 := by decide

/-- Claim C4 (amended): on the sample matrix A at column 0 the packer
produces `data_word = 1 | (5<<16) | (9<<32) | (13<<48)` and
`address_word = 0 | (4<<4) | (8<<8) | (12<<12)`, the element addresses
0, 4, 8, 12 each shifted by `row*4`. -/
theorem sample_column0_packed_words :
    load_matrix_A_column_buffers matrix_A 0 =
      (0 ||| 4 <<< 4 ||| 8 <<< 8 ||| 12 <<< 12,
       1 ||| 5 <<< 16 ||| 9 <<< 32 ||| 13 <<< 48) := by decide

/-- Claim C9: `compose_bram_address` is injective on its valid domain: two
pairs of in-range indices yielding the same address are equal. -/
theorem compose_bram_address_injective (b1 e1 b2 e2 : Nat)
    (hb1 : b1 < 4) (he1 : e1 < 4) (hb2 : b2 < 4) (he2 : e2 < 4)
    (h : compose_bram_address b1 e1 = compose_bram_address b2 e2) :
    b1 = b2 ∧ e1 = e2 := by
  rw [compose_bram_address_eq _ _ he1, compose_bram_address_eq _ _ he2] at h
  omega

/-- Claim C9 witness: applying injectivity at the pair (3,1) twice. -/
theorem compose_bram_address_injective_witness : 3 = 3 ∧ 1 = 1 :=
  compose_bram_address_injective 3 1 3 1 (by norm_num) (by norm_num)
    (by norm_num) (by norm_num) rfl

/-- Claim C10: for any index `i` in `[0,4)` and any operand matrices, the
address word of `load_matrix_A_column` for column `i` equals the address
word of `load_matrix_B_row` for row `i`; both equal the OR over slot `s` of
`(i | s<<2) << (s*4)`; and the two data words are each other's element
selection under matrix transposition. -/
theorem loader_address_words_agree (m1 m2 : Matrix4) (i : Nat) (hi : i < 4) :
    (load_matrix_A_column_buffers m1 i).1
        = (load_matrix_B_row_buffers m2 i).1
    ∧ (load_matrix_A_column_buffers m1 i).1 =
        (i ||| 0 <<< 2) <<< (0 * 4) ||| (i ||| 1 <<< 2) <<< (1 * 4)
          ||| (i ||| 2 <<< 2) <<< (2 * 4) ||| (i ||| 3 <<< 2) <<< (3 * 4)
    ∧ (load_matrix_B_row_buffers m2 i).2
        = (load_matrix_A_column_buffers (fun r c => m2 c r) i).2 := by
  refine ⟨rfl, ?_, rfl⟩
  show ((((0 ||| compose_bram_address 0 i <<< 0)
        ||| compose_bram_address 1 i <<< 4)
        ||| compose_bram_address 2 i <<< 8)
        ||| compose_bram_address 3 i <<< 12) = _
  simp only [compose_bram_address, ELEMENT_INDEX_BITS, Nat.zero_or,
    Nat.shiftLeft_zero, Nat.zero_mul, Nat.one_mul]

/-- Claim C10 witness: the two sample matrices at index 0. -/
theorem loader_address_words_agree_witness :
    (load_matrix_A_column_buffers matrix_A 0).1
        = (load_matrix_B_row_buffers matrix_B 0).1
    ∧ (load_matrix_A_column_buffers matrix_A 0).1 =
        (0 ||| 0 <<< 2) <<< (0 * 4) ||| (0 ||| 1 <<< 2) <<< (1 * 4)
          ||| (0 ||| 2 <<< 2) <<< (2 * 4) ||| (0 ||| 3 <<< 2) <<< (3 * 4)
    ∧ (load_matrix_B_row_buffers matrix_B 0).2
        = (load_matrix_A_column_buffers (fun r c => matrix_B c r) 0).2 :=
  loader_address_words_agree matrix_A matrix_B 0 (by norm_num)

/-- Claim C5: an index of 4 or more passed to either packer routine
performs no register write, reports the invalid index, and aborts the step,
leaving the device untouched. -/
theorem out_of_range_index_writes_nothing (mA mB : Matrix4) (i : Nat)
    (h : 4 ≤ i) :
    load_matrix_A_column_events mA i = ([], true)
    ∧ load_matrix_B_row_events mB i = ([], true) := by
  constructor <;>
    simp [load_matrix_A_column_events, load_matrix_B_row_events,
      MATRIX_DIM, h]

/-- Claim C5 witness: the boundary index 4 on the sample matrices. -/
theorem out_of_range_index_writes_nothing_witness :
    load_matrix_A_column_events matrix_A 4 = ([], true)
    ∧ load_matrix_B_row_events matrix_B 4 = ([], true) :=
  out_of_range_index_writes_nothing matrix_A matrix_B 4 (by norm_num)

/-- Once the done bit appears at poll step `n` past `j` and is clear before
that, the poll performs exactly the status reads up to and including step
`n`, whenever it is given enough fuel to get there. -/
theorem poll_status_events_found (s : Nat → Nat) (n : Nat) :
    ∀ j fuel, (s (j + n) % 2 ^ 32) &&& 0x1 ≠ 0 →
      (∀ m, m < n → (s (j + m) % 2 ^ 32) &&& 0x1 = 0) →
      n < fuel →
      poll_status_events s j fuel =
        some ((List.range (n + 1)).map fun k =>
          RegEvent.read ADDR_STATUS_OFFSET 32 (s (j + k) % 2 ^ 32)) := by
  induction n with
  | zero =>
    intro j fuel hdone hmin hfuel
    obtain ⟨f, rfl⟩ : ∃ f, fuel = f + 1 := ⟨fuel - 1, by omega⟩
    rw [Nat.add_zero] at hdone
    simp only [poll_status_events, if_pos hdone]
    rfl
  | succ n ih =>
    intro j fuel hdone hmin hfuel
    obtain ⟨f, rfl⟩ : ∃ f, fuel = f + 1 := ⟨fuel - 1, by omega⟩
    have hclear0 : ¬((s j % 2 ^ 32) &&& 0x1 ≠ 0) := by
      have h0 := hmin 0 (by omega)
      rw [Nat.add_zero] at h0
      exact fun hc => hc h0
    have hdone2 : (s (j + 1 + n) % 2 ^ 32) &&& 0x1 ≠ 0 := by
      have h12 : j + (n + 1) = j + 1 + n := by omega
      rw [h12] at hdone
      exact hdone
    have hmin2 : ∀ m, m < n → (s (j + 1 + m) % 2 ^ 32) &&& 0x1 = 0 := by
      intro m hm
      have := hmin (m + 1) (by omega)
      have h12 : j + (m + 1) = j + 1 + m := by omega
      rw [h12] at this
      exact this
    simp only [poll_status_events, if_neg hclear0,
      ih (j + 1) f hdone2 hmin2 (by omega)]
    congr 1
    conv_rhs => rw [List.range_succ_eq_map, List.map_cons, List.map_map]
    congr 1
    apply List.map_congr_left
    intro a _
    have h12 : j + 1 + a = j + Nat.succ a := by omega
    simp [Function.comp, h12]

/-- While every status value offered so far has bit 0 clear, the poll never
returns: it is still spinning after any number of reads. -/
theorem poll_status_events_spins (s : Nat → Nat) :
    ∀ fuel j, (∀ m, m < fuel → (s (j + m) % 2 ^ 32) &&& 0x1 = 0) →
      poll_status_events s j fuel = none := by
  intro fuel
  induction fuel with
  | zero => intro j _; rfl
  | succ f ih =>
    intro j hclear
    have hclear0 : ¬((s j % 2 ^ 32) &&& 0x1 ≠ 0) := by
      have h0 := hclear 0 (by omega)
      rw [Nat.add_zero] at h0
      exact fun hc => hc h0
    have hrest : ∀ m, m < f → (s (j + 1 + m) % 2 ^ 32) &&& 0x1 = 0 := by
      intro m hm
      have := hclear (m + 1) (by omega)
      have h12 : j + (m + 1) = j + 1 + m := by omega
      rw [h12] at this
      exact this
    simp only [poll_status_events, if_neg hclear0, ih (j + 1) hrest]

/-- Claim C8: the completion poll repeatedly reads the status register and
never proceeds while bit 0 of the last read is clear; it exits exactly at
the first read whose value has bit 0 set, having performed only status
reads and applied no timeout: with insufficient fuel it is still spinning,
and with any sufficient fuel its trace is precisely the status reads up to
and including the first successful one. -/
theorem status_poll_blocks_until_done (s : Nat → Nat) (n : Nat)
    (hdone : (s n % 2 ^ 32) &&& 0x1 ≠ 0)
    (hmin : ∀ m, m < n → (s m % 2 ^ 32) &&& 0x1 = 0) :
    (∀ fuel, n < fuel →
      poll_status_events s 0 fuel =
        some ((List.range (n + 1)).map fun k =>
          RegEvent.read ADDR_STATUS_OFFSET 32 (s k % 2 ^ 32)))
    ∧ ∀ fuel, fuel ≤ n → poll_status_events s 0 fuel = none := by
  constructor
  · intro fuel hf
    have := poll_status_events_found s n 0 fuel (by simpa using hdone)
      (fun m hm => by simpa using hmin m hm) hf
    simpa using this
  · intro fuel hf
    exact poll_status_events_spins s fuel 0
      (fun m hm => by simpa using hmin m (by omega))

/-- Claim C8 witness: a device whose third status read is the first with
the done bit set; five units of fuel suffice and the trace is exactly the
three status reads. -/
theorem status_poll_blocks_until_done_witness :
    poll_status_events statusDoneAtTwo 0 5 =
      some ((List.range (2 + 1)).map fun k =>
        RegEvent.read ADDR_STATUS_OFFSET 32 (statusDoneAtTwo k % 2 ^ 32)) :=
  (status_poll_blocks_until_done statusDoneAtTwo 2 (by decide)
    (by decide)).1 5 (by norm_num)

/-- Every event in a completed poll is a 32-bit read of the status
register. -/
theorem poll_status_events_only_status_reads (s : Nat → Nat) :
    ∀ fuel j evs, poll_status_events s j fuel = some evs →
      ∀ e ∈ evs, ∃ v, e = RegEvent.read ADDR_STATUS_OFFSET 32 v := by
  intro fuel
  induction fuel with
  | zero =>
    intro j evs h
    exact absurd h (by simp [poll_status_events])
  | succ f ih =>
    intro j evs h
    simp only [poll_status_events] at h
    by_cases hc : (s j % 2 ^ 32) &&& 0x1 ≠ 0
    · rw [if_pos hc] at h
      obtain rfl := Option.some.inj h
      intro e he
      rw [List.mem_singleton] at he
      exact ⟨_, he⟩
    · rw [if_neg hc] at h
      cases hp : poll_status_events s (j + 1) f with
      | none => rw [hp] at h; exact absurd h (by simp)
      | some evs2 =>
        rw [hp] at h
        obtain rfl := Option.some.inj h
        intro e he
        rcases List.mem_cons.mp he with rfl | hmem
        · exact ⟨_, rfl⟩
        · exact ih (j + 1) evs2 hp e hmem

/-- A completed poll contributes no control-register write to the trace. -/
theorem poll_status_events_filter_control (s : Nat → Nat) (fuel j : Nat)
    (evs : List RegEvent) (h : poll_status_events s j fuel = some evs) :
    evs.filter isControlWrite = [] := by
  rw [List.filter_eq_nil_iff]
  intro e he
  obtain ⟨v, rfl⟩ := poll_status_events_only_status_reads s fuel j evs h e he
  simp [isControlWrite]

/-- Structure of a completed `main` trace: the two load phases, the control
write, the poll reads, and the result sweep, in that order. -/
theorem main_events_structure (A B : Matrix4) (s c : Nat → Nat) (fuel : Nat)
    (tr : List RegEvent) (h : main_events A B s c fuel = some tr) :
    ∃ pollEvs, poll_status_events s 0 fuel = some pollEvs
      ∧ tr = load_A_phase_events A ++ load_B_phase_events B
          ++ [RegEvent.write ADDR_CONTROL_OFFSET 32 0x3] ++ pollEvs
          ++ read_results_events c := by
  unfold main_events at h
  cases hp : poll_status_events s 0 fuel with
  | none => rw [hp] at h; exact absurd h (by simp)
  | some pollEvs =>
    rw [hp] at h
    exact ⟨pollEvs, rfl, (Option.some.inj h).symm⟩

set_option maxHeartbeats 2000000 in
/-- Claim C6 counterexample: in the concrete run on the sample matrices
(device done on the first status read), the only write to the control
register is the 32-bit access `write 0x00 32 0x3` given by the `alt_u32`
pointer; no 64-bit write of the command value occurs, refuting the claimed
64-bit register access. -/
theorem control_write_not_64_bit :
    mainSampleTrace.filter isControlWrite
        = [RegEvent.write ADDR_CONTROL_OFFSET 32 0x3]
    ∧ mainSampleTrace.filter
        (fun e => decide (e = RegEvent.write ADDR_CONTROL_OFFSET 64 0x3))
        = [] := by decide

set_option maxHeartbeats 2000000 in
/-- Claim C6 (amended): the trigger step performs exactly one write to the
control register (offset 0x00), as a 32-bit register access, of the fixed
command value 0x3, and this write occurs only after all 4 A-column write
pairs and all 4 B-row write pairs have completed. -/
theorem control_write_once_after_loads (A B : Matrix4) (s c : Nat → Nat)
    (fuel : Nat) (tr : List RegEvent)
    (h : main_events A B s c fuel = some tr) :
    tr.filter isControlWrite = [RegEvent.write ADDR_CONTROL_OFFSET 32 0x3]
    ∧ (∃ post, tr = load_A_phase_events A ++ load_B_phase_events B
        ++ RegEvent.write ADDR_CONTROL_OFFSET 32 0x3 :: post)
    ∧ load_A_phase_events A = load_A_phase_expected A
    ∧ load_B_phase_events B = load_B_phase_expected B := by
  obtain ⟨pollEvs, hp, rfl⟩ := main_events_structure A B s c fuel tr h
  have hA : (load_A_phase_events A).filter isControlWrite = [] := rfl
  have hB : (load_B_phase_events B).filter isControlWrite = [] := rfl
  have hR : (read_results_events c).filter isControlWrite = [] := rfl
  have hP : pollEvs.filter isControlWrite = [] :=
    poll_status_events_filter_control s fuel 0 pollEvs hp
  refine ⟨?_, ⟨pollEvs ++ read_results_events c, by simp [List.append_assoc]⟩,
    rfl, rfl⟩
  simp only [List.filter_append, hA, hB, hR, hP, List.nil_append,
    List.append_nil]
  rfl

set_option maxHeartbeats 2000000 in
/-- Claim C6 witness: the amended statement at the concrete sample run. -/
theorem control_write_once_after_loads_witness :
    mainSampleTrace.filter isControlWrite
        = [RegEvent.write ADDR_CONTROL_OFFSET 32 0x3]
    ∧ (∃ post, mainSampleTrace = load_A_phase_events matrix_A
        ++ load_B_phase_events matrix_B
        ++ RegEvent.write ADDR_CONTROL_OFFSET 32 0x3 :: post)
    ∧ load_A_phase_events matrix_A = load_A_phase_expected matrix_A
    ∧ load_B_phase_events matrix_B = load_B_phase_expected matrix_B :=
  control_write_once_after_loads matrix_A matrix_B statusDoneAtOnce
    cDataZero 1 mainSampleTrace rfl

set_option maxHeartbeats 2000000 in
/-- Claim C7: a completed run ends with the result sweep, which visits the
16 output positions in row-major order, for each first writing the linear
index `row*4+col` to the C-address register and then reading the C-data
register once; the C-address values written are exactly 0..15 ascending. -/
theorem result_sweep_row_major (A B : Matrix4) (s c : Nat → Nat)
    (fuel : Nat) (tr : List RegEvent)
    (h : main_events A B s c fuel = some tr) :
    (∃ pre, tr = pre ++ read_results_events c)
    ∧ read_results_events c = result_sweep_expected c
    ∧ (read_results_events c).filterMap cAddrWriteValue = List.range 16 := by
  obtain ⟨pollEvs, _, rfl⟩ := main_events_structure A B s c fuel tr h
  exact ⟨⟨load_A_phase_events A ++ load_B_phase_events B
    ++ [RegEvent.write ADDR_CONTROL_OFFSET 32 0x3] ++ pollEvs,
    by simp [List.append_assoc]⟩, rfl, rfl⟩

set_option maxHeartbeats 2000000 in
/-- Claim C7 witness: the concrete sample run. -/
theorem result_sweep_row_major_witness :
    (∃ pre, mainSampleTrace = pre ++ read_results_events cDataZero)
    ∧ read_results_events cDataZero = result_sweep_expected cDataZero
    ∧ (read_results_events cDataZero).filterMap cAddrWriteValue
        = List.range 16 :=
  result_sweep_row_major matrix_A matrix_B statusDoneAtOnce cDataZero 1
    mainSampleTrace rfl

end Soc
